import Mathlib

/-!
Verification development for the Square-B-Chatbot menu core.

The definitions below are a shallow embedding of the Python sources:
  * `src/services/menu_service.py` (`MenuService`): menu parsing
    (`_parse_menu`, `_parse_table_row`, `_parse_list_item`), catalog state
    (`menu_items`, `categories`, `all_item_names`), `load_menu`,
    `search_item`, `get_category_items`, `format_item_with_price`;
  * `src/main.py`: `normalize` and `find_items_in_text`.

Python strings are modelled as Lean `String` / `List Char` (one code point
per `Char`, matching Python's per-code-point string semantics).  Regular
expressions used by the source are compiled by hand into deterministic
scanning functions that implement the leftmost / lazy / greedy matching
order of Python's `re.search`.  The third-party fuzzy scorer
`rapidfuzz.fuzz.WRatio` is external library code, not part of this
repository; the retrieval engine is therefore modelled generically over a
scorer function `String → String → Nat` (rapidfuzz scores are bounded
similarity values and `process.extract` orders ties by input index, which
is the documented `sorted`-based behaviour modelled here).
-/

namespace SquareB

/-- Whitespace as recognised by Python's `str.strip()` and the regex class
`\s` on the ASCII range (the only whitespace appearing in the sources). -/
def pyIsSpace (c : Char) : Bool :=
  c = ' ' || c = '\t' || c = '\n' || c = '\r' || c = '\x0b' || c = '\x0c'

/-- Drop whitespace from both ends of a character list (`str.strip()`). -/
def trimChars (l : List Char) : List Char :=
  ((l.dropWhile pyIsSpace).reverse.dropWhile pyIsSpace).reverse

/-- Python `str.strip()`. -/
def pyStrip (s : String) : String :=
  String.mk (trimChars s.data)

/-- Python `str.split(sep)` for a one-character separator: keeps empty
pieces, so `"a||b".split('|') = ["a", "", "b"]`. -/
def pySplit (sep : Char) : List Char → List (List Char)
  | [] => [[]]
  | c :: rest =>
    let r := pySplit sep rest
    if c = sep then [] :: r
    else
      match r with
      | h :: t => (c :: h) :: t
      | [] => [[c]]

/-- Is `needle` a contiguous infix of the list? -/
def chIsInfixOf (needle : List Char) : List Char → Bool
  | [] => needle.isEmpty
  | c :: rest => needle.isPrefixOf (c :: rest) || chIsInfixOf needle rest

/-- Python substring test `needle in haystack`. -/
def chContains (haystack : List Char) (needle : String) : Bool :=
  chIsInfixOf needle.data haystack

/-- Python substring test on `String`s. -/
def strContains (haystack : String) (needle : String) : Bool :=
  chContains haystack.data needle

/-- Python `str.lower()`.  `Char.toLower` lowers the ASCII range; all
case-carrying text in the sources is ASCII (Arabic script is caseless). -/
def strLower (s : String) : String :=
  String.mk (s.data.map Char.toLower)

/-- The regex `[؀-ۿ]` from `_parse_menu`: does the line contain
an Arabic-block character? -/
def hasArabic (l : List Char) : Bool :=
  l.any (fun c => 0x600 ≤ c.toNat && c.toNat ≤ 0x6FF)

/-- The decorative emoji class `[🍔🍟🥤👶🧂]` of the category-header regex. -/
def isMenuEmoji (c : Char) : Bool :=
  c = '🍔' || c = '🍟' || c = '🥤' || c = '👶' || c = '🧂'

/-- The characters of the currency word `دينار`. -/
def dinarChars : List Char := "دينار".data

/-- Matcher for the regex fragment `(\d+\.\d+)\s*دينار` anchored at the
start of `s`: greedy digit runs around a literal dot, optional whitespace,
then the currency word.  Returns the captured decimal text.  (Greedy
`\d+` needs no backtracking here: shrinking a digit run leaves a digit,
which can match neither `.`, `\s` nor the currency word.) -/
def matchNumDinar (s : List Char) : Option String :=
  let d1 := s.takeWhile Char.isDigit
  let r := s.dropWhile Char.isDigit
  if d1.isEmpty then none
  else
    match r with
    | '.' :: r2 =>
      let d2 := r2.takeWhile Char.isDigit
      let r3 := r2.dropWhile Char.isDigit
      if d2.isEmpty then none
      else if dinarChars.isPrefixOf (r3.dropWhile pyIsSpace) then
        some (String.mk (d1 ++ '.' :: d2))
      else none
    | _ => none

/-- `re.search(r'(\d+\.\d+)\s*دينار', s)`: scan for the leftmost start
position at which `matchNumDinar` succeeds (Python `re.search` tries
start positions left to right). -/
def findNumDinar : List Char → Option String
  | [] => none
  | c :: rest =>
    match matchNumDinar (c :: rest) with
    | some p => some p
    | none => findNumDinar rest

/-- Matcher for the tail `\s*-\s*(\d+\.\d+)\s*دينار` of the list-item
price regex, anchored at the start of `s`. -/
def matchBulletTail (s : List Char) : Option String :=
  match s.dropWhile pyIsSpace with
  | '-' :: r2 => matchNumDinar (r2.dropWhile pyIsSpace)
  | _ => none

/-- Lazy expansion of the group `(.+?)` at a fixed start position: try the
shortest non-empty name first, checking the price tail right after it. -/
def lazyName (acc : List Char) : List Char → Option (List Char × String)
  | [] => none
  | c :: rest =>
    match matchBulletTail rest with
    | some price => some (acc ++ [c], price)
    | none => lazyName (acc ++ [c]) rest

/-- `re.search(r'(.+?)\s*-\s*(\d+\.\d+)\s*دينار', line)`: try each start
position left to right, and at each, the lazy name expansion.  Returns
`(group(1), group(2))`. -/
def searchListPrice : List Char → Option (String × String)
  | [] => none
  | c :: rest =>
    match lazyName [] (c :: rest) with
    | some (name, price) => some (String.mk name, price)
    | none => searchListPrice rest

/-- `re.sub(r'\*\*', '', name)`: delete non-overlapping `**` pairs,
scanning left to right. -/
def removeStarStar : List Char → List Char
  | '*' :: '*' :: rest => removeStarStar rest
  | c :: rest => c :: removeStarStar rest
  | [] => []

/-- `re.sub(r'^[-•]\s*', '', line)`: strip one leading bullet character
and the whitespace run after it. -/
def stripBullet : List Char → List Char
  | c :: rest => if c = '-' || c = '•' then rest.dropWhile pyIsSpace else c :: rest
  | [] => []

/-- `re.search(r'##\s*[🍔🍟🥤👶🧂]*\s*(.+)', line).group(1).strip()` for a
stripped `line` that starts with `##` (and not `###`): `rest` is the text
after the two markers.  The greedy prefix `\s*[...]*\s*` is taken
maximally; when nothing is left for `(.+)`, Python's engine backtracks by
one character, so the group degenerates to the last character of the
respective run.  `none` when the regex does not match at all. -/
def categoryFromRest (rest : List Char) : Option String :=
  if rest.isEmpty then none
  else
    let s1 := rest.dropWhile pyIsSpace
    let s2 := s1.dropWhile isMenuEmoji
    let s3 := s2.dropWhile pyIsSpace
    let d :=
      if !s3.isEmpty then s3
      else if !s2.isEmpty then [s2.getLastD ' ']
      else if !s1.isEmpty then [s1.getLastD ' ']
      else [rest.getLastD ' ']
    some (String.mk (trimChars d))

/-- `re.search(r'###\s*(.+)', line).group(1).strip()` for a stripped line
starting with `###`; `rest` is the text after the three markers. -/
def subcategoryFromRest (rest : List Char) : Option String :=
  if rest.isEmpty then none
  else
    let s1 := rest.dropWhile pyIsSpace
    let d := if !s1.isEmpty then s1 else [rest.getLastD ' ']
    some (String.mk (trimChars d))

/-- One parsed menu entry: the Python dict built by `_parse_table_row` /
`_parse_list_item`.  `none` models an absent key (or Python `None`); the
parser always stores strings for the keys it sets. -/
structure MenuItem where
  name : Option String := none
  name_ar : Option String := none
  category : Option String := none
  subcategory : Option String := none
  size : Option String := none
  price_regular : Option String := none
  price_regular_formatted : Option String := none
  type : Option String := none
  search_aliases : List String := []
  deriving DecidableEq, Repr

/-- Python string truthiness for an optional string value. -/
def optTruthy : Option String → Bool
  | some s => s ≠ ""
  | none => false

/-- The insertion-ordered dict `self.categories : Dict[str, List[Dict]]`. -/
abbrev CatDict := List (String × List MenuItem)

/-- `key in dict`. -/
def dictContains (d : CatDict) (k : String) : Bool :=
  d.any (fun p => p.1 == k)

/-- `dict.get(key)` (keys are unique, first match wins). -/
def dictGet (d : CatDict) (k : String) : Option (List MenuItem) :=
  match d with
  | [] => none
  | (k', v) :: rest => if k' == k then some v else dictGet rest k

/-- `dict.setdefault(key, []).append(item)`: append to the existing bucket,
or create the bucket at the end of the insertion order. -/
def dictAppend (d : CatDict) (k : String) (v : MenuItem) : CatDict :=
  if dictContains d k then
    d.map (fun p => if p.1 == k then (p.1, p.2 ++ [v]) else p)
  else d ++ [(k, [v])]

/-- The mutable parse state threaded through `_parse_menu`'s line loop. -/
structure ParseState where
  menu_items : List MenuItem := []
  categories : CatDict := []
  current_category : Option String := none
  current_subcategory : Option String := none
  pending_arabic_translation : Option String := none
  deriving Repr

/-- The emission pattern shared by `_parse_table_row` and
`_parse_list_item`: `self.menu_items.append(item)` followed by
`if category: self.categories.setdefault(category, []).append(item)`
(the meal branch indexes `self.categories[category]` directly, but the
key necessarily exists there, so the effect is the same dict append). -/
def emitItem (st : ParseState) (item : MenuItem) : ParseState :=
  { st with
    menu_items := st.menu_items ++ [item]
    categories :=
      match st.current_category with
      | some c => if c ≠ "" then dictAppend st.categories c item else st.categories
      | none => st.categories }

/-- The cell list `[p.strip() for p in line.split('|') if p.strip()]`. -/
def tableRowParts (line : List Char) : List String :=
  ((pySplit '|' line).map (fun p => String.mk (trimChars p))).filter
    (fun p => p ≠ "")

/-- `item_name = f"{subcategory} {size}" if subcategory else size`. -/
def tableItemName (subcat : Option String) (size : String) : String :=
  match subcat with
  | some sub => if sub ≠ "" then sub ++ " " ++ size else size
  | none => size

/-- The `search_aliases` list built by `_parse_table_row` (lines 146-158):
subcategory-family synonyms, then the unconditional burger family. -/
def tableAliases (subcat : Option String) : List String :=
  (match subcat with
   | some sub =>
     if sub ≠ "" then
       let sl := strLower sub
       let a := [sub]
       let a := if strContains sl "beef" then
         a ++ ["بيف", "لحم", "لحمة", "beef", "لحم بقري"] else a
       let a := if strContains sl "chicken" then
         a ++ ["دجاج", "شكن", "chicken", "فراخ"] else a
       let a := if strContains sl "triple" then
         a ++ ["تريبل", "triple"] else a
       let a := if strContains sl "fire" then
         a ++ ["حار", "فاير", "fire", "حراق"] else a
       a
     else []
   | none => []) ++ ["برجر", "برقر", "burger", "ساندوتش"]

/-- The regular-variant dict built by `_parse_table_row` (lines 160-170). -/
def tableRegularItem (st : ParseState) (size regular_price : String) : MenuItem :=
  { name := some (tableItemName st.current_subcategory size)
    name_ar := some (tableItemName st.current_subcategory size)
    category := st.current_category
    subcategory := st.current_subcategory
    size := some size
    price_regular := some regular_price
    price_regular_formatted := some (regular_price ++ " دينار")
    type := some "regular"
    search_aliases := tableAliases st.current_subcategory }

/-- The meal-variant copy built by `_parse_table_row` (lines 179-184):
`item.copy()` with name, prices, type and aliases overridden (its `name_ar`
stays the base item name). -/
def tableMealItem (st : ParseState) (size mp : String) : MenuItem :=
  { tableRegularItem st size mp with
    name := some (tableItemName st.current_subcategory size ++ " وجبة")
    price_regular := some mp
    price_regular_formatted := some (mp ++ " دينار")
    type := some "meal"
    search_aliases := tableAliases st.current_subcategory ++ ["وجبة", "meal", "ميل"] }

/-- `MenuService._parse_table_row` (src/services/menu_service.py:114).
The Python locals `parts` and `size` are pure expressions, inlined here. -/
def parse_table_row (st : ParseState) (line : List Char) : ParseState :=
  if (tableRowParts line).length < 3 then st
  else if strContains ((tableRowParts line).getD 0 "") "Size"
       || strContains ((tableRowParts line).getD 0 "") "Regular"
       || strContains ((tableRowParts line).getD 0 "") "---" then st
  else
    match findNumDinar ((tableRowParts line).getD 1 "").data with
    | none => st
    | some regular_price =>
      match findNumDinar ((tableRowParts line).getD 2 "").data with
      | none => emitItem st (tableRegularItem st ((tableRowParts line).getD 0 "") regular_price)
      | some mp =>
        emitItem
          (emitItem st (tableRegularItem st ((tableRowParts line).getD 0 "") regular_price))
          (tableMealItem st ((tableRowParts line).getD 0 "") mp)

/-- `name_clean`: `group(1).strip()` with markdown `**` removed, then
stripped again (lines 199-203). -/
def listCleanName (name0 : String) : String :=
  String.mk (trimChars (removeStarStar (pyStrip name0).data))

/-- The `search_aliases` list built by `_parse_list_item` (lines 206-225)
from the lower-cased clean name. -/
def listAliases (name_clean : String) : List String :=
  let nl := strLower name_clean
  let a : List String := []
  let a := if strContains nl "beef" then
    a ++ ["بيف", "لحم", "لحمة", "beef", "لحم بقري"] else a
  let a := if strContains nl "chicken" then
    a ++ ["دجاج", "شكن", "chicken", "فراخ"] else a
  let a := if strContains nl "burger" then
    a ++ ["برجر", "برقر", "burger", "ساندوتش"] else a
  let a := if strContains nl "fries" || strContains nl "بطاطا" then
    a ++ ["بطاطا", "بطاطس", "فرايز", "fries", "بطاط"] else a
  let a := if strContains nl "cheese" then
    a ++ ["جبنة", "جبن", "cheese"] else a
  let a := if strContains nl "mozzarella" then
    a ++ ["موزاريلا", "موزريلا", "mozzarella"] else a
  let a := if strContains nl "jalapeno" || strContains nl "jalapeño" then
    a ++ ["هالابينو", "جلابينو", "jalapeno", "هلابينو"] else a
  let a := if strContains nl "pop corn" || strContains nl "popcorn" then
    a ++ ["بوب كورن", "فشار دجاج", "popcorn"] else a
  a

/-- The dict built by `_parse_list_item` (lines 227-238): `name_ar` is the
pending Arabic translation when truthy, else the clean name. -/
def listItemRecord (st : ParseState) (name0 price : String) : MenuItem :=
  { name := some (listCleanName name0)
    name_ar := some
      (match st.pending_arabic_translation with
       | some t => if t ≠ "" then t else listCleanName name0
       | none => listCleanName name0)
    category := st.current_category
    price_regular := some price
    price_regular_formatted := some (price ++ " دينار")
    type := some "item"
    search_aliases := listAliases (listCleanName name0) }

/-- `MenuService._parse_list_item` (src/services/menu_service.py:190).
Items whose line does not match the price regex are not emitted at all. -/
def parse_list_item (st : ParseState) (line0 : List Char) : ParseState :=
  match searchListPrice (trimChars (stripBullet line0)) with
  | none => st
  | some (name0, price) => emitItem st (listItemRecord st name0 price)

/-- The body of one iteration of the line loop in
`MenuService._parse_menu` (src/services/menu_service.py:66-99), applied to
the already stripped line. -/
def processStripped (st : ParseState) (line : List Char) : ParseState :=
  if line.isEmpty || "---".data.isPrefixOf line then st
  else if "##".data.isPrefixOf line && !("###".data.isPrefixOf line) then
    match categoryFromRest (line.drop 2) with
    | some c =>
      { st with
        current_category := some c
        categories := if dictContains st.categories c then st.categories
                      else st.categories ++ [(c, [])] }
    | none => st
  else if "###".data.isPrefixOf line then
    match subcategoryFromRest (line.drop 3) with
    | some s => { st with current_subcategory := some s }
    | none => st
  else if chContains line "|" && chContains line "دينار" then
    parse_table_row st line
  else if hasArabic line && !("-".data.isPrefixOf line) && !("**".data.isPrefixOf line) then
    { st with pending_arabic_translation := some (String.mk line) }
  else if "-".data.isPrefixOf line || "•".data.isPrefixOf line then
    { parse_list_item st line with pending_arabic_translation := none }
  else st

/-- One iteration of the line loop: `line = line.strip()`, then the
classification chain. -/
def processLine (st : ParseState) (line0 : List Char) : ParseState :=
  processStripped st (trimChars line0)

/-- The alias list `self.all_item_names` built at the end of `_parse_menu`
(src/services/menu_service.py:101-112). -/
def build_item_names (items : List MenuItem) : List String :=
  items.foldl
    (fun acc it =>
      let acc :=
        match it.name with
        | some s => if s ≠ "" then acc ++ [s] else acc
        | none => acc
      let acc :=
        match it.name_ar with
        | some t => if t ≠ "" ∧ some t ≠ it.name then acc ++ [t] else acc
        | none => acc
      if it.search_aliases.isEmpty then acc else acc ++ it.search_aliases)
    []

/-- The catalog-bearing fields of a `MenuService` instance. -/
structure MenuState where
  menu_items : List MenuItem := []
  categories : CatDict := []
  all_item_names : List String := []
  raw_menu_text : String := ""
  deriving Repr

/-- `MenuService._parse_menu` (src/services/menu_service.py:49): reset the
catalog fields, fold the line loop over the split source text, then build
the alias list.  (The delivery-number extraction touches only the
unrelated `delivery_number` field and is not modelled.) -/
def parse_menu (raw : String) : MenuState :=
  let lines := pySplit '\n' raw.data
  let st := lines.foldl processLine {}
  { menu_items := st.menu_items
    categories := st.categories
    all_item_names := build_item_names st.menu_items
    raw_menu_text := raw }

/-- `MenuService.load_menu` (src/services/menu_service.py:25).  The file
system is modelled by the optional source text: `none` means the menu file
does not exist (the code logs and returns `False`, leaving all catalog
fields untouched); otherwise the text is read, `_parse_menu` rebuilds the
catalog fields in place, and the method returns `True` unconditionally. -/
def load_menu (st : MenuState) (file : Option String) : MenuState × Bool :=
  match file with
  | none => (st, false)
  | some raw => (parse_menu raw, true)

/-- `MenuService.get_category_items` (src/services/menu_service.py:298). -/
def get_category_items (st : MenuState) (category : String) : List MenuItem :=
  (dictGet st.categories category).getD []

/-- `MenuService.format_item_with_price` (src/services/menu_service.py:306):
`item.get('name_ar', item.get('name', ''))` and
`item.get('price_regular_formatted', f"{item.get('price_regular', '0.00')} دينار")`. -/
def format_item_with_price (item : MenuItem) : String :=
  let name :=
    match item.name_ar with
    | some v => v
    | none =>
      match item.name with
      | some v => v
      | none => ""
  let price :=
    match item.price_regular_formatted with
    | some v => v
    | none =>
      (match item.price_regular with
       | some v => v
       | none => "0.00") ++ " دينار"
  name ++ " - " ++ price

/-- Stable insertion of `x` into a list already sorted by `score`
descending: `x` goes before the first element whose score is not greater,
so that among equal scores earlier-input elements stay first.  This is the
tie behaviour of both Python's stable `list.sort(..., reverse=True)` and
`rapidfuzz.process.extract` (documented as `sorted(..., reverse=True)[:n]`). -/
def insertDescBy (score : α → Nat) (x : α) : List α → List α
  | [] => [x]
  | y :: ys => if score x < score y then y :: insertDescBy score x ys else x :: y :: ys

/-- Stable sort, highest score first. -/
def stableSortDesc (score : α → Nat) : List α → List α
  | [] => []
  | x :: xs => insertDescBy score x (stableSortDesc score xs)

/-- `rapidfuzz.process.extract(query, names, scorer, limit=10)` modelled
generically over the scorer: score every choice against the query, sort by
score descending (ties by input order), keep the best 10. -/
def processExtract (f : String → String → Nat) (query : String) (names : List String) :
    List (String × Nat) :=
  (stableSortDesc (fun p => p.2) (names.map (fun n => (n, f query n)))).take 10

/-- The dedup key `f"{item['name']}_{item.get('price_regular')}"` from
`search_item` (a missing `price_regular` prints as `None`). -/
def itemId (it : MenuItem) : String :=
  it.name.getD "" ++ "_" ++
    (match it.price_regular with
     | some p => p
     | none => "None")

/-- The match test of `search_item`'s inner loop: the extracted text is the
item's name, its Arabic name, or (when the alias list is non-empty) one of
its search aliases. -/
def matchesItem (text : String) (it : MenuItem) : Bool :=
  it.name == some text || it.name_ar == some text ||
    (!it.search_aliases.isEmpty && it.search_aliases.contains text)

/-- The inner `for item in self.menu_items` loop: skip items whose id was
already seen, take the first remaining item matching the text. -/
def findMatch (text : String) (seen : List String) : List MenuItem → Option MenuItem
  | [] => none
  | it :: rest =>
    if seen.contains (itemId it) then findMatch text seen rest
    else if matchesItem text it then some it
    else findMatch text seen rest

/-- The outer `for match_text, score, _ in matches` loop of `search_item`:
keep matches clearing the threshold, resolve each to at most one unseen
item, recording its dedup id. -/
def collectResults (menu : List MenuItem) (threshold : Nat) :
    List (String × Nat) → List String → List (MenuItem × Nat)
  | [], _ => []
  | (text, score) :: ms, seen =>
    if threshold ≤ score then
      match findMatch text seen menu with
      | some it => (it, score) :: collectResults menu threshold ms (itemId it :: seen)
      | none => collectResults menu threshold ms seen
    else collectResults menu threshold ms seen

/-- `MenuService.search_item` (src/services/menu_service.py:245), modelled
generically over the external `rapidfuzz` scorer `f` (the code passes
`fuzz.WRatio`).  Returns `(item, score)` pairs: empty for an empty query or
empty alias list, otherwise the deduplicated matches sorted by score
descending (Python's sort is stable) and truncated to the top 5. -/
def search_item (f : String → String → Nat) (st : MenuState) (query : String)
    (threshold : Nat) : List (MenuItem × Nat) :=
  if query = "" || st.all_item_names.isEmpty then []
  else
    let extracted := processExtract f query st.all_item_names
    let results := collectResults st.menu_items threshold extracted []
    (stableSortDesc (fun p => p.2) results).take 5

/-! ### `src/main.py`: `normalize` and `find_items_in_text`

`main.py` keeps its own in-memory catalog `MENU : List[MenuItem]` of
pydantic records and its own retrieval function.  Its fuzzy fallback uses
`difflib.SequenceMatcher.ratio()`, a floating-point similarity over which
the direct pass takes priority; the fallback is modelled as an opaque
function parameter, which the direct pass never invokes. -/

/-- The pydantic `MenuItem` of `src/main.py:75` (the `float` price is
modelled as a rational; `find_items_in_text` never inspects it). -/
structure MainMenuItem where
  id : String := ""
  name : String
  color : Option String := none
  price : Option ℚ := none
  category : Option String := none
  description : Option String := none
  deriving DecidableEq, Repr

/-- `main.normalize` (src/main.py:671):
`re.sub(r"\s+", " ", (s or '').strip()).lower()`.  `collapseWs` replaces
each maximal whitespace run by a single space (`inWs` tracks whether the
previous character was part of a run). -/
def collapseWs : Bool → List Char → List Char
  | _, [] => []
  | inWs, c :: rest =>
    if pyIsSpace c then
      (if inWs then [] else [' ']) ++ collapseWs true rest
    else c :: collapseWs false rest

/-- `main.normalize`. -/
def normalize (s : String) : String :=
  strLower (String.mk (collapseWs false (trimChars s.data)))

/-- The direct-pass predicate of `find_items_in_text` (src/main.py:682):
the item's normalized name is truthy and occurs inside the normalized
user text. -/
def directPred (text : String) (it : MainMenuItem) : Bool :=
  normalize it.name ≠ "" && chIsInfixOf (normalize it.name).data text.data

/-- `main.find_items_in_text` (src/main.py:677).  `fuzzyPass` stands for
the `difflib`-based fallback block (lines 686-695), which only runs when
the direct pass finds nothing. -/
def find_items_in_text (fuzzyPass : List MainMenuItem → String → List MainMenuItem)
    (menu : List MainMenuItem) (user_text : String) : List MainMenuItem :=
  if menu.isEmpty then []
  else
    let text := normalize user_text
    let direct := menu.filter (directPred text)
    if !direct.isEmpty then direct.take 5
    else fuzzyPass menu text

/-! ### Concrete catalogs used by the retrieval claims -/

/-- Every item the parser ever emits carries a regular price. -/
def pricedB (it : MenuItem) : Bool :=
  it.price_regular.isSome

/-- A minimal catalog item carrying only a name (which is also its own
alias, since names are always part of `all_item_names`) and a price. -/
def mkNameItem (n p : String) : MenuItem :=
  { name := some n, name_ar := some n, price_regular := some p }

/-- Two distinct catalog items (different prices, hence different dedup
ids) sharing the identical alias string `Burger`. -/
def itemBurgerA : MenuItem := mkNameItem "Burger" "3.50"

def itemBurgerB : MenuItem := mkNameItem "Burger" "4.75"

def sharedAliasState : MenuState :=
  { menu_items := [itemBurgerA, itemBurgerB]
    all_item_names := build_item_names [itemBurgerA, itemBurgerB] }

def itemBbb : MenuItem := mkNameItem "Bbb" "1.00"

def singleBbbState : MenuState :=
  { menu_items := [itemBbb], all_item_names := build_item_names [itemBbb] }

def sixItems : List MenuItem :=
  [mkNameItem "Aaa1" "1.00", mkNameItem "Aaa2" "1.00", mkNameItem "Aaa3" "1.00",
   mkNameItem "Aaa4" "1.00", mkNameItem "Aaa5" "1.00", mkNameItem "Aaa6" "1.00"]

def sixItemState : MenuState :=
  { menu_items := sixItems, all_item_names := build_item_names sixItems }

def sevenItems : List MenuItem := sixItems ++ [itemBbb]

def boundaryCexState : MenuState :=
  { menu_items := sevenItems, all_item_names := build_item_names sevenItems }

/-- A scorer giving the alias `Bbb` exactly the default threshold and
every other alias a higher score. -/
def bbbScorer : String → String → Nat := fun _ n => if n = "Bbb" then 60 else 100

/-- Catalog entries for the exact-substring precedence claim. -/
def mainBurger : MainMenuItem := { id := "burger", name := "Burger" }

def mainCheeseBurger : MainMenuItem := { id := "cheese-burger", name := "Cheese Burger" }

/-! ### Helper lemmas -/

/-- A key that is not in the dict looks up to `none`. -/
theorem dictGet_none : ∀ (d : CatDict) (k : String),
    dictContains d k = false → dictGet d k = none
  | [], _, _ => rfl
  | (k', v) :: rest, k, h => by
    simp only [dictContains, List.any_cons, Bool.or_eq_false_iff] at h
    simpa only [dictGet, h.1, if_false] using dictGet_none rest k (by
      simpa only [dictContains] using h.2)

theorem emitItem_priced {st : ParseState} {item : MenuItem}
    (h1 : pricedB item = true) (h : st.menu_items.all pricedB = true) :
    (emitItem st item).menu_items.all pricedB = true := by
  simp [emitItem, List.all_append, h, h1]

theorem parse_table_row_priced (st : ParseState) (line : List Char)
    (h : st.menu_items.all pricedB = true) :
    (parse_table_row st line).menu_items.all pricedB = true := by
  unfold parse_table_row
  repeat' split
  all_goals
    first
    | exact h
    | exact emitItem_priced rfl h
    | exact emitItem_priced rfl (emitItem_priced rfl h)

theorem parse_list_item_priced (st : ParseState) (line : List Char)
    (h : st.menu_items.all pricedB = true) :
    (parse_list_item st line).menu_items.all pricedB = true := by
  unfold parse_list_item
  split
  · exact h
  · exact emitItem_priced rfl h

theorem processLine_priced (st : ParseState) (line0 : List Char)
    (h : st.menu_items.all pricedB = true) :
    (processLine st line0).menu_items.all pricedB = true := by
  unfold processLine processStripped
  repeat' split
  all_goals
    first
    | exact h
    | exact parse_table_row_priced st _ h
    | exact parse_list_item_priced st _ h

theorem foldl_processLine_priced : ∀ (lines : List (List Char)) (st : ParseState),
    st.menu_items.all pricedB = true →
    (lines.foldl processLine st).menu_items.all pricedB = true
  | [], _, h => h
  | l :: ls, st, h =>
    foldl_processLine_priced ls (processLine st l) (processLine_priced st l h)

theorem mem_insertDescBy {α : Type} {score : α → Nat} {x y : α} :
    ∀ {l : List α}, y ∈ insertDescBy score x l → y = x ∨ y ∈ l
  | [], h => by simpa [insertDescBy] using h
  | z :: zs, h => by
    unfold insertDescBy at h
    split at h
    · rcases List.mem_cons.mp h with h1 | h2
      · exact Or.inr (h1 ▸ List.mem_cons_self z zs)
      · rcases mem_insertDescBy h2 with h3 | h4
        · exact Or.inl h3
        · exact Or.inr (List.mem_cons_of_mem z h4)
    · rcases List.mem_cons.mp h with h1 | h2
      · exact Or.inl h1
      · exact Or.inr h2

theorem mem_stableSortDesc {α : Type} {score : α → Nat} {y : α} :
    ∀ {l : List α}, y ∈ stableSortDesc score l → y ∈ l
  | [], h => by simp [stableSortDesc] at h
  | z :: zs, h => by
    unfold stableSortDesc at h
    rcases mem_insertDescBy h with h1 | h2
    · exact h1 ▸ List.mem_cons_self z zs
    · exact List.mem_cons_of_mem z (mem_stableSortDesc h2)

/-- Everything `collectResults` emits cleared the threshold test. -/
theorem collectResults_le {menu : List MenuItem} {t : Nat} :
    ∀ {ms : List (String × Nat)} {seen : List String} {p : MenuItem × Nat},
      p ∈ collectResults menu t ms seen → t ≤ p.2
  | [], _, _, h => by simp [collectResults] at h
  | (text, score) :: ms, seen, p, h => by
    unfold collectResults at h
    split at h
    next hts =>
      split at h
      next it heq =>
        rcases List.mem_cons.mp h with h1 | h2
        · rw [h1]; exact hts
        · exact collectResults_le h2
      next heq => exact collectResults_le h
    next => exact collectResults_le h

/-- Every result of `search_item` scores at least the threshold. -/
theorem search_item_score_ge (f : String → String → Nat) (st : MenuState)
    (q : String) (t : Nat) (p : MenuItem × Nat) (hp : p ∈ search_item f st q t) :
    t ≤ p.2 := by
  unfold search_item at hp
  split at hp
  · simp at hp
  · exact collectResults_le (mem_stableSortDesc (List.take_subset 5 _ hp))

/-! ### Claim theorems -/

/-- C1, counterexample.  The claim's own example row has the size label
`Regular`; `_parse_table_row` treats any first cell containing `Size`,
`Regular` or `---` as a header row and skips it, so this row emits zero
`MenuItem` records, not two. -/
theorem regular_size_row_emits_nothing :
    (parse_menu "### Beef\nRegular | 3.50 دينار | 4.75 دينار").menu_items = [] := rfl

/-- C1, amended.  For a price-table row whose size label is not caught by
the header filter (here `Single`) under subcategory `Beef`, the parser
emits exactly two records: `Beef Single` with the regular price and type
`regular`, and `Beef Single وجبة` with the meal price and type `meal`. -/
theorem table_row_emits_regular_and_meal :
    (parse_menu "### Beef\nSingle | 3.50 دينار | 4.75 دينار").menu_items.map
      (fun it => (it.name, it.price_regular, it.type)) =
      [(some "Beef Single", some "3.50", some "regular"),
       (some "Beef Single وجبة", some "4.75", some "meal")] := rfl

/-- C2, counterexample.  Reloading from an empty source text reports
success (`True`), although the parse produced zero items, and the
previously active catalog (here one parsed item) is wiped rather than
left untouched. -/
theorem load_menu_empty_source_cex :
    (load_menu (parse_menu "## SIDES\n- **Fries** - 2.50 دينار") (some "")).2 = true ∧
    (load_menu (parse_menu "## SIDES\n- **Fries** - 2.50 دينار") (some "")).1.menu_items = [] ∧
    (parse_menu "## SIDES\n- **Fries** - 2.50 دينار").menu_items ≠ [] :=
  ⟨rfl, rfl, by decide⟩

/-- C2, amended.  `load_menu` reports success for every readable source,
even one whose parse produces zero items, and `_parse_menu`
unconditionally replaces the previous catalog generation: after loading
an empty source the item list and category index are empty regardless of
the prior state. -/
theorem load_menu_success_and_replacement :
    (∀ (st : MenuState) (raw : String), (load_menu st (some raw)).2 = true) ∧
    (∀ st : MenuState, (load_menu st (some "")).1.menu_items = [] ∧
      (load_menu st (some "")).1.categories = []) :=
  ⟨fun _ _ => rfl, fun _ => ⟨rfl, rfl⟩⟩

/-- C6, counterexample.  A bulleted list item whose price field fails to
parse (`abc` is not a decimal) is dropped entirely: no unpriced item is
emitted, contrary to the claimed `price = absent` recovery. -/
theorem unpriced_list_item_dropped :
    (parse_menu "## SIDES\n- **Cheese Fries** - abc دينار").menu_items = [] := rfl

/-- C6, amended.  List items whose price fails to parse are dropped just
like table rows: `_parse_list_item` only emits when the price regex
matches, so every item in any parsed catalog carries a regular price. -/
theorem parse_menu_items_all_priced (raw : String) :
    (parse_menu raw).menu_items.all pricedB = true :=
  foldl_processLine_priced (pySplit '\n' raw.data) {} rfl

/-- C7, counterexample.  Processing a category header does not clear the
subcategory or the pending description: after `## Drinks`, the previous
subcategory `Beef` still names the new table items, and a pending Arabic
line from before the header becomes the Arabic name of a list item under
the new category. -/
theorem category_header_leaks_state_cex :
    (parse_menu "### Beef\n## Drinks\nSingle | 3.50 دينار | 4.75 دينار").menu_items.map
      (fun it => (it.name, it.category, it.subcategory)) =
      [(some "Beef Single", some "Drinks", some "Beef"),
       (some "Beef Single وجبة", some "Drinks", some "Beef")] ∧
    (parse_menu "وصف\n## Drinks\n- **Fries** - 2.50 دينار").menu_items.map
      (fun it => (it.name, it.name_ar)) = [(some "Fries", some "وصف")] :=
  ⟨rfl, rfl⟩

/-- C7, amended.  Processing a category-header line sets the current
category but leaves both the current subcategory and the pending Arabic
translation unchanged, so either can leak into items of the new
category. -/
theorem category_header_keeps_subcategory_and_pending (st : ParseState) :
    (processLine st "## Drinks".data).current_category = some "Drinks" ∧
    (processLine st "## Drinks".data).current_subcategory = st.current_subcategory ∧
    (processLine st "## Drinks".data).pending_arabic_translation
      = st.pending_arabic_translation :=
  ⟨rfl, rfl, rfl⟩

/-- C8, counterexample.  For an item with no price fields,
`format_item_with_price` renders the placeholder `0.00 دينار`, not an
empty price. -/
theorem format_absent_price_cex :
    format_item_with_price { name_ar := some "X" } = "X - 0.00 دينار" ∧
    ("X - 0.00 دينار" : String) ≠ "X - " :=
  ⟨rfl, by decide⟩

/-- C8, amended.  With a present price the canonical
`name - amount currency-word` form is rendered; with the price absent the
fixed placeholder amount `0.00` is rendered instead of an empty price. -/
theorem format_item_price_rendering (n p : String) :
    format_item_with_price
      { name_ar := some n, price_regular := some p,
        price_regular_formatted := some (p ++ " دينار") } = n ++ " - " ++ (p ++ " دينار") ∧
    format_item_with_price { name_ar := some n } = n ++ " - " ++ "0.00 دينار" :=
  ⟨rfl, rfl⟩

/-- C10, confirmed.  `get_category_items` on a category that is not a key
of the category index returns the empty list (via `dict.get`'s default)
rather than raising. -/
theorem get_category_items_unknown_empty (st : MenuState) (c : String)
    (h : dictContains st.categories c = false) :
    get_category_items st c = [] := by
  unfold get_category_items
  rw [dictGet_none st.categories c h]
  rfl

/-- Witness for C10 at the empty catalog and the category `Pizza`. -/
theorem get_category_items_unknown_empty_witness :
    dictContains (MenuState.categories {}) "Pizza" = false ∧
    get_category_items {} "Pizza" = [] :=
  ⟨rfl, get_category_items_unknown_empty {} "Pizza" rfl⟩

/-- C4, confirmed.  When two distinct catalog items share the identical
alias `Burger`, the alias list contains one entry per owning item, so for
every scorer, query and threshold cleared by that alias, `search_item`
returns both items (each resolved through its own alias entry by the
per-item dedup), not just one: the shared alias behaves as a mapping to a
set of candidate items disambiguated by score. -/
theorem shared_alias_both_items_reachable (f : String → String → Nat) (q : String)
    (t : Nat) (hq : q ≠ "") (ht : t ≤ f q "Burger") :
    search_item f sharedAliasState q t
      = [(itemBurgerA, f q "Burger"), (itemBurgerB, f q "Burger")] := by
  have hnames : sharedAliasState.all_item_names = ["Burger", "Burger"] := rfl
  have hmenu : sharedAliasState.menu_items = [itemBurgerA, itemBurgerB] := rfl
  unfold search_item
  rw [hnames, hmenu, if_neg (by simp [hq])]
  show (stableSortDesc (fun p => p.2)
      (collectResults [itemBurgerA, itemBurgerB] t
        (processExtract f q ["Burger", "Burger"]) [])).take 5
    = [(itemBurgerA, f q "Burger"), (itemBurgerB, f q "Burger")]
  have hext : processExtract f q ["Burger", "Burger"]
      = [("Burger", f q "Burger"), ("Burger", f q "Burger")] := by
    simp [processExtract, stableSortDesc, insertDescBy, lt_self_iff_false]
  rw [hext]
  have h1 : findMatch "Burger" [] [itemBurgerA, itemBurgerB] = some itemBurgerA := rfl
  have h2 : findMatch "Burger" [itemId itemBurgerA] [itemBurgerA, itemBurgerB]
      = some itemBurgerB := rfl
  have hcol : collectResults [itemBurgerA, itemBurgerB] t
      [("Burger", f q "Burger"), ("Burger", f q "Burger")] []
      = [(itemBurgerA, f q "Burger"), (itemBurgerB, f q "Burger")] := by
    simp only [collectResults, ht, if_true, h1, h2, ite_true]
  rw [hcol]
  have hsort : stableSortDesc (fun p => p.2)
      [(itemBurgerA, f q "Burger"), (itemBurgerB, f q "Burger")]
      = [(itemBurgerA, f q "Burger"), (itemBurgerB, f q "Burger")] := by
    simp [stableSortDesc, insertDescBy, lt_self_iff_false]
  rw [hsort]
  rfl

/-- Witness for C4 with a constant scorer at the default threshold. -/
theorem shared_alias_both_items_reachable_witness :
    search_item (fun _ _ => 100) sharedAliasState "Burger" 60
      = [(itemBurgerA, 100), (itemBurgerB, 100)] :=
  shared_alias_both_items_reachable (fun _ _ => 100) "Burger" 60 (by decide) (by decide)

/-- C5, counterexample.  `search_item` takes no `limit` argument: with six
items all scoring 100 at threshold 0 it returns exactly its hard-coded cap
of 5 results, so a caller requesting a limit of 4 (or anything other than
5 with ≥ 5 candidates) cannot be honoured. -/
theorem search_item_caps_at_five_cex :
    (search_item (fun _ _ => 100) sixItemState "q" 0).length = 5 ∧
    ¬ ((search_item (fun _ _ => 100) sixItemState "q" 0).length ≤ 4) :=
  ⟨rfl, by decide⟩

/-- C5, amended.  `search_item` takes only a query and a threshold; the
score-sorted candidate list is truncated to the fixed internal cap of 5
(after the fuzzy-extraction cap of 10), so every call returns at most 5
results. -/
theorem search_item_at_most_five (f : String → String → Nat) (st : MenuState)
    (q : String) (t : Nat) : (search_item f st q t).length ≤ 5 := by
  unfold search_item
  split
  · simp
  · show ((stableSortDesc (fun p => p.2)
        (collectResults st.menu_items t
          (processExtract f q st.all_item_names) [])).take 5).length ≤ 5
    rw [List.length_take]
    exact Nat.min_le_left _ _

/-- C9, counterexample.  A candidate alias scoring exactly the threshold
is not always included: with six other items scoring 100, the alias `Bbb`
scores exactly the threshold 60 yet its item is cut off by the fixed
top-5 result cap. -/
theorem threshold_scoring_alias_excluded :
    bbbScorer "q" "Bbb" = 60 ∧
    ((search_item bbbScorer boundaryCexState "q" 60).map (fun p => p.1)).contains itemBbb
      = false :=
  ⟨rfl, by decide⟩

/-- C9, amended.  The threshold test is inclusive: every returned result
scores at least the threshold (so an alias scoring `threshold - 1` is
always excluded, shown for a threshold ≥ 1, below which no lower score
exists), and a candidate scoring exactly the threshold is included
whenever the fixed caps do not cut it — e.g. in a single-item catalog it
is returned with its exact score. -/
theorem threshold_boundary_behaviour :
    (∀ (f : String → String → Nat) (st : MenuState) (q : String) (t : Nat)
      (p : MenuItem × Nat), p ∈ search_item f st q t → t ≤ p.2) ∧
    (∀ (f : String → String → Nat) (q : String) (t : Nat), q ≠ "" → f q "Bbb" = t →
      search_item f singleBbbState q t = [(itemBbb, t)]) ∧
    (∀ (f : String → String → Nat) (q : String) (t : Nat), 1 ≤ t → q ≠ "" →
      f q "Bbb" = t - 1 → search_item f singleBbbState q t = []) := by
  refine ⟨fun f st q t p hp => search_item_score_ge f st q t p hp, ?_, ?_⟩
  · intro f q t hq hf
    have hnames : singleBbbState.all_item_names = ["Bbb"] := rfl
    have hmenu : singleBbbState.menu_items = [itemBbb] := rfl
    unfold search_item
    rw [hnames, hmenu, if_neg (by simp [hq])]
    show (stableSortDesc (fun p => p.2)
        (collectResults [itemBbb] t (processExtract f q ["Bbb"]) [])).take 5
      = [(itemBbb, t)]
    have hext : processExtract f q ["Bbb"] = [("Bbb", t)] := by
      simp [processExtract, stableSortDesc, insertDescBy, hf]
    rw [hext]
    have h1 : findMatch "Bbb" [] [itemBbb] = some itemBbb := rfl
    have hcol : collectResults [itemBbb] t [("Bbb", t)] [] = [(itemBbb, t)] := by
      simp only [collectResults, le_refl, if_true, h1, ite_true]
    rw [hcol]
    simp [stableSortDesc, insertDescBy]
  · intro f q t ht hq hf
    have hnames : singleBbbState.all_item_names = ["Bbb"] := rfl
    have hmenu : singleBbbState.menu_items = [itemBbb] := rfl
    unfold search_item
    rw [hnames, hmenu, if_neg (by simp [hq])]
    show (stableSortDesc (fun p => p.2)
        (collectResults [itemBbb] t (processExtract f q ["Bbb"]) [])).take 5
      = []
    have hext : processExtract f q ["Bbb"] = [("Bbb", t - 1)] := by
      simp [processExtract, stableSortDesc, insertDescBy, hf]
    rw [hext]
    have hlt : ¬ (t ≤ t - 1) := by omega
    have hcol : collectResults [itemBbb] t [("Bbb", t - 1)] [] = [] := by
      simp only [collectResults, hlt, if_false, ite_false]
    rw [hcol]
    simp [stableSortDesc]

/-- Witness for C9: the score lower bound applied to a concrete result of
the single-item catalog, exact-threshold inclusion at threshold 60, and
below-threshold exclusion at threshold 60 with score 59. -/
theorem threshold_boundary_behaviour_witness :
    (60 : Nat) ≤ ((itemBbb, 60) : MenuItem × Nat).2 ∧
    search_item (fun _ _ => 60) singleBbbState "Bbb" 60 = [(itemBbb, 60)] ∧
    search_item (fun _ _ => 59) singleBbbState "Bbb" 60 = [] :=
  ⟨threshold_boundary_behaviour.1 (fun _ _ => 60) singleBbbState "Bbb" 60
      (itemBbb, 60) (by decide),
    threshold_boundary_behaviour.2.1 (fun _ _ => 60) "Bbb" 60 (by decide) rfl,
    threshold_boundary_behaviour.2.2 (fun _ _ => 59) "Bbb" 60 (by decide) (by decide) rfl⟩

/-- C3, counterexample.  The direct pass returns matches in catalog order,
not exact-match-first: for the query `Cheese Burger` both items match
(`burger` is a substring of the normalized query and `cheese burger`
equals it), and the item whose name equals the query comes second, after
the earlier catalog item `Burger`. -/
theorem exact_match_not_first_cex :
    find_items_in_text (fun _ _ => []) [mainBurger, mainCheeseBurger] "Cheese Burger"
      = [mainBurger, mainCheeseBurger] ∧
    normalize mainCheeseBurger.name = normalize "Cheese Burger" ∧
    mainBurger ≠ mainCheeseBurger :=
  ⟨rfl, rfl, by decide⟩

/-- C3, amended.  When some catalog item's normalized (non-empty) name
occurs as a substring of the normalized query, the direct pass returns
exactly the matching items in catalog order, capped at the fixed limit of
5, and never invokes the fuzzy fallback (the result is independent of it);
the exactly matched item is therefore included, but it is first only when
no earlier catalog item also matches. -/
theorem direct_pass_catalog_order
    (f₁ f₂ : List MainMenuItem → String → List MainMenuItem)
    (menu : List MainMenuItem) (q : String) (it : MainMenuItem)
    (hmem : it ∈ menu) (hd : directPred (normalize q) it = true) :
    find_items_in_text f₁ menu q = (menu.filter (directPred (normalize q))).take 5 ∧
    find_items_in_text f₁ menu q = find_items_in_text f₂ menu q := by
  have hfil : it ∈ menu.filter (directPred (normalize q)) :=
    List.mem_filter.mpr ⟨hmem, hd⟩
  have hne : menu.isEmpty = false := by
    cases menu with
    | nil => cases hmem
    | cons a l => rfl
  have hdir : (menu.filter (directPred (normalize q))).isEmpty = false := by
    cases hfe : menu.filter (directPred (normalize q)) with
    | nil => rw [hfe] at hfil; cases hfil
    | cons a l => rfl
  constructor
  · unfold find_items_in_text
    simp [hne, hdir]
  · unfold find_items_in_text
    simp [hne, hdir]

/-- Witness for C3 on a one-item catalog with two different fuzzy
fallbacks. -/
theorem direct_pass_catalog_order_witness :
    mainBurger ∈ [mainBurger] ∧
    directPred (normalize "Burger") mainBurger = true ∧
    (find_items_in_text (fun _ _ => []) [mainBurger] "Burger"
        = ([mainBurger].filter (directPred (normalize "Burger"))).take 5 ∧
      find_items_in_text (fun _ _ => []) [mainBurger] "Burger"
        = find_items_in_text (fun m _ => m) [mainBurger] "Burger") :=
  ⟨List.mem_cons_self _ _, rfl,
    direct_pass_catalog_order (fun _ _ => []) (fun m _ => m) [mainBurger] "Burger"
      mainBurger (List.mem_cons_self _ _) rfl⟩

end SquareB
